import Mathlib

/-!
Shallow embedding of the s3_benchmark workload driver (src/main.rs).

The program spawns PUT workers and GET workers against an S3-compatible
store, collects one `Stats` record per successful operation into a shared
vector, and after all workers join aggregates the records into a summary.

External effects (the store's responses, the random source, timestamps)
are modelled as explicit inputs: each worker consumes a script of
responses, one entry per request it would issue.  Rust panics (`unwrap`
on a failed body drain, on a missing key, and `u128` division by zero)
are modelled as `Option`/dedicated outcome constructors.
-/

namespace S3Bench

/-- Operation kind of one recorded operation (`RequestType` in src/main.rs). -/
inductive RequestType
  | Put
  | Get
deriving DecidableEq

/-- One record per completed operation (`Stats` in src/main.rs).
Instants are modelled as natural-number timestamps in milliseconds, so
`duration_since(start).as_millis()` is truncated subtraction. -/
structure Stats where
  start_time : Nat
  end_time : Nat
  request_type : RequestType
  file_size : Nat
deriving DecidableEq

/-- Observable console/timing effects emitted by a worker:
`out` is a `println!`, `errOut` an `eprintln!`, `sleepSec` a `tokio::time::sleep`. -/
inductive GEvent
  | out (s : String)
  | errOut (s : String)
  | sleepSec (n : Nat)
deriving DecidableEq

/-- `thread_rng().gen_range(lo..hi)`: a draw `r` from the random source is
mapped onto the half-open range `[lo, hi)`. -/
def genRange (lo hi r : Nat) : Nat := lo + r % (hi - lo)

/-- The PUT payload size: `thread_rng().gen_range(1024..1024 * 1024 * 100)`. -/
def fileSizeOf (r : Nat) : Nat := genRange 1024 (1024 * 1024 * 100) r

/-- The PUT payload body: `(0..file_size).map(|_| thread_rng().gen()).collect()`,
one fresh draw from the stream per byte. -/
def genBody (size : Nat) (draw : Nat → Nat) : List Nat :=
  (List.range size).map (fun i => draw i % 256)

/-- The two `RusotoError` variants the program distinguishes:
`HttpDispatch(_)` versus every other error. -/
inductive StoreErr
  | httpDispatch
  | other
deriving DecidableEq

/-- The external inputs consumed by one PUT loop iteration: the size draw,
the store's answer to `put_object` (`none` = `Ok`), and the two instants. -/
structure PutIterEnv where
  sizeRand : Nat
  putResult : Option StoreErr
  startTime : Nat
  endTime : Nat
deriving DecidableEq

/-- One iteration of the PUT worker loop (src/main.rs lines 85-122):
on `Ok` a `Stats{Put, ..}` record is produced (with a timing line when
verbose); on `HttpDispatch` only `"HttpDispatch"` is printed; on any other
error only an error line is printed.  No branch retries or aborts. -/
def putIter (pfx : String) (v : Bool) (e : PutIterEnv) : Option Stats × List GEvent :=
  let fs := fileSizeOf e.sizeRand
  let key := pfx ++ "/put_" ++ toString fs
  match e.putResult with
  | none =>
      (some ⟨e.startTime, e.endTime, RequestType.Put, fs⟩,
        if v then
          [GEvent.out ("put key " ++ key ++ " takes " ++
            toString (e.endTime - e.startTime) ++ "ms")]
        else [])
  | some StoreErr.httpDispatch => (none, [GEvent.out "HttpDispatch"])
  | some StoreErr.other => (none, [GEvent.errOut "Error putting object"])

/-- The result of one PUT worker: its appended stats (in push order) and
its emitted console events. -/
structure PutRun where
  stats : List Stats
  events : List GEvent
deriving DecidableEq

/-- The PUT worker's `for _ in 0..put_count_per_thread` loop: one `putIter`
per environment entry, accumulating pushed stats and events. -/
def putWorkerLoop (pfx : String) (v : Bool) :
    List PutIterEnv → List Stats → List GEvent → PutRun
  | [], acc, tr => ⟨acc, tr⟩
  | e :: rest, acc, tr =>
      let r := putIter pfx v e
      putWorkerLoop pfx v rest (acc ++ r.1.toList) (tr ++ r.2)

/-- A PUT worker run from the empty state. -/
def putWorkerRun (pfx : String) (v : Bool) (envs : List PutIterEnv) : PutRun :=
  putWorkerLoop pfx v envs [] []

/-- The stats contributed by a pool of PUT workers (one environment list per
worker).  The shared mutex-guarded vector receives every pushed record
exactly once, so its multiset of records is the concatenation of the
per-worker contributions; interleaving affects order only. -/
def runPutPool (pfx : String) (v : Bool) (pool : List (List PutIterEnv)) : List Stats :=
  (pool.map (fun envs => (putWorkerRun pfx v envs).stats)).flatten

/-- An object descriptor from a listing page (`rusoto_s3::Object`): the key
field is optional. -/
structure S3Object where
  key : Option String
deriving DecidableEq

/-- One `ListObjectsV2` response: optional contents, optional continuation
token.  Token values only select the next scripted response. -/
structure ListPage where
  contents : Option (List S3Object)
  nextToken : Option Nat
deriving DecidableEq

/-- The store's answer to one listing request. -/
inductive ListResult
  | ok (page : ListPage)
  | errDispatch
  | errOther
deriving DecidableEq

/-- The inner listing loop (src/main.rs lines 146-166), consuming one
scripted response per request:
  `Ok` with absent contents breaks; otherwise contents are accumulated and
  an absent continuation token breaks; `HttpDispatch` prints and retries
  (consumes the next response); any other error prints to stderr and breaks.
Returns `none` when the script is exhausted with the loop still running. -/
def listLoop : List S3Object → List GEvent → List ListResult →
    Option (List S3Object) × List GEvent
  | _, evs, [] => (none, evs)
  | acc, evs, ListResult.ok page :: rest =>
      match page.contents with
      | none => (some acc, evs)
      | some objs =>
          match page.nextToken with
          | none => (some (acc ++ objs), evs)
          | some _ => listLoop (acc ++ objs) evs rest
  | acc, evs, ListResult.errDispatch :: rest =>
      listLoop acc (evs ++ [GEvent.out "HttpDispatch"]) rest
  | acc, evs, ListResult.errOther :: _ =>
      (some acc, evs ++ [GEvent.errOut "Error listing objects"])

/-- The store's answer to one `get_object`, together with the drain result:
`okBody body drainOk` is `Ok` with `Some(body)`, where `drainOk = false`
means `read_to_end` failed (the code `unwrap`s it, a panic). -/
inductive GetOutcome
  | okBody (body : List Nat) (drainOk : Bool)
  | okNoBody
  | errDispatch
  | errOther
deriving DecidableEq

/-- The external inputs consumed by one outer GET loop iteration:
the listing responses for this pass, the key-selection draw, the answer to
`get_object`, and the two instants. -/
structure GetAttemptEnv where
  listScript : List ListResult
  keyRand : Nat
  getResult : GetOutcome
  startTime : Nat
  endTime : Nat
deriving DecidableEq

/-- The listing pass an attempt performs, started from an empty candidate
set (a fresh `ListObjectsV2Request`). -/
def attemptListing (e : GetAttemptEnv) : Option (List S3Object) × List GEvent :=
  listLoop [] [] e.listScript

/-- `objects[thread_rng().gen_range(0..objects.len())]` on a nonempty
candidate list. -/
def pickObj (r : Nat) (o : S3Object) (os : List S3Object) : S3Object :=
  (o :: os).get ⟨r % (o :: os).length, Nat.mod_lt _ (Nat.succ_pos _)⟩

/-- The outcome of one outer GET loop iteration:
`stuck`: listing script exhausted with the listing loop still running;
`emptyRetry`: zero candidates, sleep 1s and restart without advancing;
`panicked`: an `unwrap` panic (missing key, or failed body drain);
`counted st`: `get_num` advanced; `st` is the pushed record, if any. -/
inductive AttemptResult
  | stuck (evs : List GEvent)
  | emptyRetry (evs : List GEvent)
  | panicked (evs : List GEvent)
  | counted (st : Option Stats) (evs : List GEvent)
deriving DecidableEq

/-- One outer GET loop iteration (src/main.rs lines 140-212): run the
listing pass; with zero candidates sleep and retry; otherwise `get_num` is
incremented, a key is selected (its absence panics), and the GET outcome
decides whether a `Stats{Get, ..}` record is pushed (`Ok` with a drained
body), an error line is printed (`Other`, missing body), nothing happens
(`HttpDispatch`), or the drain `unwrap` panics. -/
def runGetAttempt (v : Bool) (e : GetAttemptEnv) : AttemptResult :=
  match attemptListing e with
  | (none, evs) => AttemptResult.stuck evs
  | (some [], evs) => AttemptResult.emptyRetry (evs ++ [GEvent.sleepSec 1])
  | (some (o :: os), evs) =>
      match (pickObj e.keyRand o os).key with
      | none => AttemptResult.panicked evs
      | some k =>
          match e.getResult with
          | GetOutcome.okBody body true =>
              AttemptResult.counted (some ⟨e.startTime, e.endTime, RequestType.Get, body.length⟩)
                (evs ++ (if v then
                  [GEvent.out ("get key " ++ k ++ " takes " ++
                    toString (e.endTime - e.startTime) ++ "ms")]
                 else []))
          | GetOutcome.okBody _ false => AttemptResult.panicked evs
          | GetOutcome.okNoBody =>
              AttemptResult.counted none (evs ++ [GEvent.errOut "No body in response"])
          | GetOutcome.errDispatch => AttemptResult.counted none evs
          | GetOutcome.errOther =>
              AttemptResult.counted none (evs ++ [GEvent.errOut "Error getting object"])

/-- How a GET worker run ended: reached `get_count` (`done`), ran out of
scripted responses (`exhausted`), or hit an `unwrap` panic (`panicked`). -/
inductive RunOutcome
  | done
  | exhausted
  | panicked
deriving DecidableEq

/-- The observable result of one GET worker: how it ended, its final
`get_num`, its pushed stats (in push order), and its emitted events. -/
structure GetRun where
  outcome : RunOutcome
  getNum : Nat
  stats : List Stats
  events : List GEvent
deriving DecidableEq

/-- The GET worker's outer `loop` (src/main.rs lines 135-213): check
`get_num >= get_count_per_thread` first, else run one attempt;
`emptyRetry` loops without advancing, `counted` advances `get_num` and
appends the record, `panicked`/`stuck` end the run. -/
def getWorkerLoop (count : Nat) (v : Bool) :
    List GetAttemptEnv → Nat → List Stats → List GEvent → GetRun
  | [], gn, acc, tr =>
      if count ≤ gn then ⟨RunOutcome.done, gn, acc, tr⟩
      else ⟨RunOutcome.exhausted, gn, acc, tr⟩
  | e :: rest, gn, acc, tr =>
      if count ≤ gn then ⟨RunOutcome.done, gn, acc, tr⟩
      else
        match runGetAttempt v e with
        | AttemptResult.stuck evs => ⟨RunOutcome.exhausted, gn, acc, tr ++ evs⟩
        | AttemptResult.emptyRetry evs => getWorkerLoop count v rest gn acc (tr ++ evs)
        | AttemptResult.panicked evs => ⟨RunOutcome.panicked, gn + 1, acc, tr ++ evs⟩
        | AttemptResult.counted st evs =>
            getWorkerLoop count v rest (gn + 1) (acc ++ st.toList) (tr ++ evs)

/-- A GET worker run from the initial state `get_num = 0`. -/
def getWorkerRun (count : Nat) (v : Bool) (envs : List GetAttemptEnv) : GetRun :=
  getWorkerLoop count v envs 0 [] []

/-- The per-kind accumulators of the aggregation pass. -/
structure Tally where
  putCount : Nat
  putTime : Nat
  putSize : Nat
  getCount : Nat
  getTime : Nat
  getSize : Nat
deriving DecidableEq

/-- One step of the aggregation loop over the shared vector
(src/main.rs lines 227-240). -/
def tallyStep (t : Tally) (s : Stats) : Tally :=
  match s.request_type with
  | RequestType.Put =>
      { t with putCount := t.putCount + 1,
               putTime := t.putTime + (s.end_time - s.start_time),
               putSize := t.putSize + s.file_size }
  | RequestType.Get =>
      { t with getCount := t.getCount + 1,
               getTime := t.getTime + (s.end_time - s.start_time),
               getSize := t.getSize + s.file_size }

/-- The aggregation loop over the whole collection. -/
def tallyOf (sv : List Stats) : Tally := sv.foldl tallyStep ⟨0, 0, 0, 0, 0, 0⟩

/-- Rust unsigned integer division: division by zero panics, modelled as
`none`. -/
def rustDiv (a b : Nat) : Option Nat := if b = 0 then none else some (a / b)

/-- The values printed by the two summary lines. -/
structure Summary where
  putCount : Nat
  putTime : Nat
  putAvg : Nat
  putSizeMB : Nat
  getCount : Nat
  getTime : Nat
  getAvg : Nat
  getSizeMB : Nat
deriving DecidableEq

/-- The reporting pass (src/main.rs lines 220-257): aggregate, compute
`put_time / put_count` and `get_time / get_count`, and print counts, total
times, averages and `size / 1024 / 1024`.  A zero count makes the
corresponding division panic (`none`). -/
def summarize (sv : List Stats) : Option Summary :=
  let t := tallyOf sv
  match rustDiv t.putTime t.putCount with
  | none => none
  | some pa =>
      match rustDiv t.getTime t.getCount with
      | none => none
      | some ga =>
          some ⟨t.putCount, t.putTime, pa, t.putSize / 1024 / 1024,
                t.getCount, t.getTime, ga, t.getSize / 1024 / 1024⟩

/-- Boolean equality of operation kinds, used to partition the collection. -/
def kindEq : RequestType → RequestType → Bool
  | RequestType.Put, RequestType.Put => true
  | RequestType.Get, RequestType.Get => true
  | _, _ => false

/-- Spec-side formula: the number of records of kind `k`. -/
def specCount (k : RequestType) (sv : List Stats) : Nat :=
  (sv.filter (fun s => kindEq s.request_type k)).length

/-- Spec-side formula: the summed elapsed milliseconds of records of kind `k`. -/
def specTotalTime (k : RequestType) (sv : List Stats) : Nat :=
  ((sv.filter (fun s => kindEq s.request_type k)).map
    (fun s => s.end_time - s.start_time)).sum

/-- Spec-side formula: the summed byte sizes of records of kind `k`. -/
def specTotalSize (k : RequestType) (sv : List Stats) : Nat :=
  ((sv.filter (fun s => kindEq s.request_type k)).map
    (fun s => s.file_size)).sum

/-- Spec-side pagination (the C3 sentence read literally): listing requests
are chained by the continuation token alone — a page contributes its
contents (absent contents contribute nothing) and the chain continues
exactly when the response carries a token — and the candidate set is the
accumulation over all chained pages. -/
def specAccumulateAllPages : List ListResult → List S3Object
  | [] => []
  | ListResult.ok page :: rest =>
      page.contents.getD [] ++
        (match page.nextToken with
         | none => []
         | some _ => specAccumulateAllPages rest)
  | ListResult.errDispatch :: rest => specAccumulateAllPages rest
  | ListResult.errOther :: _ => []

/-! Concrete inputs used by the closed theorems below. -/

/-- A collection holding a single Put record (an all-PUT run). -/
def onlyPut : List Stats := [⟨0, 10, RequestType.Put, 1000⟩]

/-- An attempt whose listing yields one keyed object and whose GET fails
with a non-transport store error. -/
def failedGetEnv : GetAttemptEnv :=
  ⟨[ListResult.ok ⟨some [⟨some "k"⟩], none⟩], 0, GetOutcome.errOther, 0, 0⟩

/-- A listing script whose first page has no contents but carries a
continuation token; the page reachable through that token holds one object. -/
def tokenAfterEmptyScript : List ListResult :=
  [ListResult.ok ⟨none, some 1⟩, ListResult.ok ⟨some [⟨some "a"⟩], none⟩]

/-- An attempt whose listing yields one object on page one and a
non-transport error on page two, with a GET that would succeed. -/
def partialListEnv : GetAttemptEnv :=
  ⟨[ListResult.ok ⟨some [⟨some "k"⟩], some 1⟩, ListResult.errOther], 0,
    GetOutcome.okBody [0, 1, 2] true, 0, 5⟩

/-- An attempt whose GET returns a body whose drain fails. -/
def drainFailEnv : GetAttemptEnv :=
  ⟨[ListResult.ok ⟨some [⟨some "k"⟩], none⟩], 0, GetOutcome.okBody [7] false, 0, 9⟩

/-- An attempt whose listing yields one keyed object and whose GET fails
with a transport dispatch error. -/
def dispatchFailEnv : GetAttemptEnv :=
  ⟨[ListResult.ok ⟨some [⟨some "k"⟩], none⟩], 0, GetOutcome.errDispatch, 0, 0⟩

/-- An attempt whose single listing page answers with absent contents and
no token: a clean empty pass. -/
def emptyListEnv : GetAttemptEnv :=
  ⟨[ListResult.ok ⟨none, none⟩], 0, GetOutcome.errOther, 0, 0⟩

/-- A collection with one Put and one Get record. -/
def demoBoth : List Stats :=
  [⟨0, 10, RequestType.Put, 1000⟩, ⟨0, 5, RequestType.Get, 2000⟩]

/-- The spec's end-to-end scenario: six Put records with durations
`[10,20,10,20,10,20]` ms and sizes `[1000..6000]` bytes. -/
def sixPuts : List Stats :=
  [⟨0, 10, RequestType.Put, 1000⟩, ⟨0, 20, RequestType.Put, 2000⟩,
   ⟨0, 10, RequestType.Put, 3000⟩, ⟨0, 20, RequestType.Put, 4000⟩,
   ⟨0, 10, RequestType.Put, 5000⟩, ⟨0, 20, RequestType.Put, 6000⟩]

/-- C2: aggregation over an empty partition is NOT guarded.  On a
collection with zero Get records (a valid all-PUT run) the reporting pass
evaluates `get_time / get_count` with `get_count = 0`, which in Rust
panics; the embedded `summarize` therefore yields `none` instead of the
`count = 0`, defined-average report the spec requires. -/
theorem summarize_faults_on_empty_get_partition : summarize onlyPut = none := by decide

/-- C1 counterexample: a GET worker with `get_count = 1` whose single
attempt lists a nonempty candidate set and then fails the GET with a
non-transport store error terminates `done` with `get_num = 1` and zero
recorded stats — the completed-count advanced on a failed read, so the
worker does not run until one successful read iteration has completed. -/
theorem getNum_advances_on_failed_read :
    (getWorkerRun 1 false [failedGetEnv]).outcome = RunOutcome.done ∧
    (getWorkerRun 1 false [failedGetEnv]).getNum = 1 ∧
    (getWorkerRun 1 false [failedGetEnv]).stats = [] := by decide

/-- C3 counterexample: on a first page with absent contents but a present
continuation token, the listing loop stops at once and accumulates
nothing, while token-chained accumulation over all pages (the claim read
literally) would reach the second page and collect its object. -/
theorem listing_stops_on_missing_contents :
    (listLoop [] [] tokenAfterEmptyScript).1 = some [] ∧
    specAccumulateAllPages tokenAfterEmptyScript = [⟨some "a"⟩] := by decide

/-- C4 counterexample: a non-transport listing error on page two does not
terminate the enclosing GET iteration when page one already contributed a
candidate — the worker selects a key from the partial candidate set,
issues the GET, advances `get_num`, and records a stat. -/
theorem listing_error_does_not_abort_iteration :
    (getWorkerRun 1 false [partialListEnv]).getNum = 1 ∧
    (getWorkerRun 1 false [partialListEnv]).stats = [⟨0, 5, RequestType.Get, 3⟩] := by
  decide

/-- C6 counterexample: a failure while draining the response body hits the
`read_to_end(..).unwrap()` and panics the worker — the worker aborts, so
not every store-related error during a GET iteration is non-fatal to it. -/
theorem drain_failure_panics_worker :
    (getWorkerRun 1 false [drainFailEnv]).outcome = RunOutcome.panicked := by decide

/-- C9 counterexample: on the spec's six-Put scenario the Put partition
does match the claimed values (count 6, total 90 ms, sizes summing under
one MiB), but the code produces no summary at all: the Get partition is
empty and `get_time / get_count` panics, so the claimed report is never
yielded. -/
theorem six_put_scenario_faults :
    summarize sixPuts = none ∧
    specCount RequestType.Put sixPuts = 6 ∧
    specTotalTime RequestType.Put sixPuts = 90 ∧
    specTotalTime RequestType.Put sixPuts / specCount RequestType.Put sixPuts = 15 ∧
    specTotalSize RequestType.Put sixPuts / (1024 * 1024) = 0 := by decide

/-- Helper: the record produced by one PUT iteration is `some` exactly on a
successful put. -/
theorem putIter_stat_length (pfx : String) (v : Bool) (e : PutIterEnv) :
    (putIter pfx v e).1.toList.length = if e.putResult.isNone then 1 else 0 := by
  cases h : e.putResult with
  | none => simp [putIter, h]
  | some err => cases err <;> simp [putIter, h]

/-- Helper: the PUT worker loop appends one stat per successful iteration. -/
theorem putWorkerLoop_stats_length (pfx : String) (v : Bool) :
    ∀ (envs : List PutIterEnv) (acc : List Stats) (tr : List GEvent),
      (putWorkerLoop pfx v envs acc tr).stats.length =
        acc.length + (envs.filter (fun e => e.putResult.isNone)).length
  | [], acc, tr => by simp [putWorkerLoop]
  | e :: rest, acc, tr => by
      have h1 := putWorkerLoop_stats_length pfx v rest
        (acc ++ (putIter pfx v e).1.toList) (tr ++ (putIter pfx v e).2)
      have h2 := putIter_stat_length pfx v e
      simp only [putWorkerLoop] at h1 ⊢
      rw [h1, List.length_append, List.filter_cons, h2]
      cases h : e.putResult <;> (simp [h]; try omega)

/-- Helper: successes and failures partition the iterations. -/
theorem putEnv_filter_partition (envs : List PutIterEnv) :
    (envs.filter (fun e => e.putResult.isNone)).length +
      (envs.filter (fun e => e.putResult.isSome)).length = envs.length := by
  induction envs with
  | nil => simp
  | cons e rest ih =>
      cases h : e.putResult <;> (simp [List.filter_cons, h]; try omega)

/-- C5: the PUT worker performs every configured iteration with no retry
and no abort, appending exactly `n - e` Put stats when `e` of its `n`
iterations fail (either error kind); a pool of `P` workers whose
iterations all succeed contributes exactly `P*C` stats to the shared
collection (whose record multiset is the concatenation of the per-worker
contributions). -/
theorem put_worker_stats_count (pfx : String) (v : Bool) :
    (∀ envs : List PutIterEnv,
      (putWorkerRun pfx v envs).stats.length =
        envs.length - (envs.filter (fun e => e.putResult.isSome)).length) ∧
    (∀ (pool : List (List PutIterEnv)) (C : Nat),
      (∀ envs ∈ pool, envs.length = C) →
      (∀ envs ∈ pool, ∀ e ∈ envs, e.putResult = none) →
      (runPutPool pfx v pool).length = pool.length * C) := by
  constructor
  · intro envs
    have h1 := putWorkerLoop_stats_length pfx v envs [] []
    have h2 := putEnv_filter_partition envs
    simp only [putWorkerRun, List.length_nil, Nat.zero_add] at h1 ⊢
    omega
  · intro pool C hlen hok
    induction pool with
    | nil => simp [runPutPool]
    | cons envs rest ih =>
        have hC : envs.length = C := hlen envs (by simp)
        have hstats : (putWorkerRun pfx v envs).stats.length = C := by
          have h1 := putWorkerLoop_stats_length pfx v envs [] []
          have hall : envs.filter (fun e => e.putResult.isNone) = envs :=
            List.filter_eq_self.mpr (fun e he => by
              simp [hok envs (by simp) e he])
          simp only [List.length_nil, Nat.zero_add] at h1
          show (putWorkerLoop pfx v envs [] []).stats.length = C
          rw [h1, hall, hC]
        have ih' := ih (fun es he => hlen es (by simp [he]))
          (fun es he => hok es (by simp [he]))
        simp only [runPutPool, List.map_cons, List.flatten_cons,
          List.length_append] at ih' ⊢
        rw [hstats, ih', List.length_cons]
        ring

/-- C5 witness: a pool of one worker with one successful iteration
contributes exactly one stat. -/
theorem put_worker_stats_count_witness :
    (runPutPool "p" false [[⟨0, none, 0, 1⟩]]).length = 1 := by
  have h := (put_worker_stats_count "p" false).2 [[⟨0, none, 0, 1⟩]] 1
    (by intro envs he; simp at he; simp [he])
    (by intro envs he e hee; simp at he; subst he; simp at hee; simp [hee])
  simpa using h

/-- C7: every generated payload has its length in `[1024, 1024*1024*100)`;
the buffer holds exactly `file_size` bytes, the `i`-th produced by its own
independent draw from the random stream; and the size map is a bijection
from the raw-draw residues onto the range, i.e. the draw is uniform when
the source is. -/
theorem payload_size_and_content :
    (∀ (r : Nat) (draw : Nat → Nat),
      1024 ≤ fileSizeOf r ∧ fileSizeOf r < 1024 * 1024 * 100 ∧
      (genBody (fileSizeOf r) draw).length = fileSizeOf r ∧
      ∀ i : Nat, i < fileSizeOf r →
        (genBody (fileSizeOf r) draw)[i]? = some (draw i % 256)) ∧
    (∀ n : Nat, 1024 ≤ n → n < 1024 * 1024 * 100 →
      ∃ r : Nat, r < 1024 * 1024 * 100 - 1024 ∧ fileSizeOf r = n) ∧
    (∀ r s : Nat, r < 1024 * 1024 * 100 - 1024 → s < 1024 * 1024 * 100 - 1024 →
      fileSizeOf r = fileSizeOf s → r = s) := by
  have hspan : (0 : Nat) < 1024 * 1024 * 100 - 1024 := by norm_num
  refine ⟨fun r draw => ?_, fun n h1 h2 => ?_, fun r s hr hs heq => ?_⟩
  · have hm : r % (1024 * 1024 * 100 - 1024) < 1024 * 1024 * 100 - 1024 :=
      Nat.mod_lt _ hspan
    refine ⟨?_, ?_, ?_, ?_⟩
    · exact Nat.le_add_right _ _
    · show 1024 + r % (1024 * 1024 * 100 - 1024) < 1024 * 1024 * 100
      omega
    · simp [genBody]
    · intro i hi
      simp [genBody, List.getElem?_map, List.getElem?_range,
        show i < fileSizeOf r from hi]
  · refine ⟨n - 1024, by omega, ?_⟩
    show 1024 + (n - 1024) % (1024 * 1024 * 100 - 1024) = n
    rw [Nat.mod_eq_of_lt (by omega)]
    omega
  · have hr' : fileSizeOf r = 1024 + r := by
      show 1024 + r % (1024 * 1024 * 100 - 1024) = 1024 + r
      rw [Nat.mod_eq_of_lt hr]
    have hs' : fileSizeOf s = 1024 + s := by
      show 1024 + s % (1024 * 1024 * 100 - 1024) = 1024 + s
      rw [Nat.mod_eq_of_lt hs]
    omega

/-- C7 witness: the size `2000` is reachable from a residue draw. -/
theorem payload_size_and_content_witness :
    ∃ r : Nat, r < 1024 * 1024 * 100 - 1024 ∧ fileSizeOf r = 2000 :=
  payload_size_and_content.2.1 2000 (by norm_num) (by norm_num)

/-- Helper: one GET attempt behaves identically under both verbosity
settings, except for the events of a successfully recorded attempt. -/
theorem runGetAttempt_vCases (e : GetAttemptEnv) :
    (∃ evs, runGetAttempt true e = AttemptResult.stuck evs ∧
      runGetAttempt false e = AttemptResult.stuck evs) ∨
    (∃ evs, runGetAttempt true e = AttemptResult.emptyRetry evs ∧
      runGetAttempt false e = AttemptResult.emptyRetry evs) ∨
    (∃ evs, runGetAttempt true e = AttemptResult.panicked evs ∧
      runGetAttempt false e = AttemptResult.panicked evs) ∨
    (∃ st evs evs', runGetAttempt true e = AttemptResult.counted st evs ∧
      runGetAttempt false e = AttemptResult.counted st evs') := by
  rcases h : attemptListing e with ⟨o?, evs⟩
  rcases o? with _ | (_ | ⟨o, os⟩)
  · exact Or.inl ⟨evs, by simp [runGetAttempt, h], by simp [runGetAttempt, h]⟩
  · exact Or.inr (Or.inl ⟨evs ++ [GEvent.sleepSec 1],
      by simp [runGetAttempt, h], by simp [runGetAttempt, h]⟩)
  · rcases hk : (pickObj e.keyRand o os).key with _ | k
    · exact Or.inr (Or.inr (Or.inl ⟨evs,
        by simp [runGetAttempt, h, hk], by simp [runGetAttempt, h, hk]⟩))
    · rcases hg : e.getResult with ⟨body, drain⟩ | _ | _ | _
      · cases drain
        · exact Or.inr (Or.inr (Or.inl ⟨evs,
            by simp [runGetAttempt, h, hk, hg], by simp [runGetAttempt, h, hk, hg]⟩))
        · exact Or.inr (Or.inr (Or.inr
            ⟨some ⟨e.startTime, e.endTime, RequestType.Get, body.length⟩,
             evs ++ [GEvent.out ("get key " ++ k ++ " takes " ++
               toString (e.endTime - e.startTime) ++ "ms")], evs,
             by simp [runGetAttempt, h, hk, hg], by simp [runGetAttempt, h, hk, hg]⟩))
      · exact Or.inr (Or.inr (Or.inr ⟨none, evs ++ [GEvent.errOut "No body in response"],
          evs ++ [GEvent.errOut "No body in response"],
          by simp [runGetAttempt, h, hk, hg], by simp [runGetAttempt, h, hk, hg]⟩))
      · exact Or.inr (Or.inr (Or.inr ⟨none, evs, evs,
          by simp [runGetAttempt, h, hk, hg], by simp [runGetAttempt, h, hk, hg]⟩))
      · exact Or.inr (Or.inr (Or.inr ⟨none, evs ++ [GEvent.errOut "Error getting object"],
          evs ++ [GEvent.errOut "Error getting object"],
          by simp [runGetAttempt, h, hk, hg], by simp [runGetAttempt, h, hk, hg]⟩))

/-- Helper: the trace accumulator does not influence the worker's outcome,
progress counter or recorded stats. -/
theorem getWorkerLoop_trace_irrelevant (count : Nat) (v : Bool) :
    ∀ (envs : List GetAttemptEnv) (gn : Nat) (acc : List Stats) (tr tr' : List GEvent),
      (getWorkerLoop count v envs gn acc tr).outcome =
        (getWorkerLoop count v envs gn acc tr').outcome ∧
      (getWorkerLoop count v envs gn acc tr).getNum =
        (getWorkerLoop count v envs gn acc tr').getNum ∧
      (getWorkerLoop count v envs gn acc tr).stats =
        (getWorkerLoop count v envs gn acc tr').stats
  | [], gn, acc, tr, tr' => by
      by_cases hc : count ≤ gn <;> simp [getWorkerLoop, hc]
  | e :: rest, gn, acc, tr, tr' => by
      by_cases hc : count ≤ gn
      · simp [getWorkerLoop, hc]
      · cases hA : runGetAttempt v e with
        | stuck evs => simp [getWorkerLoop, hc, hA]
        | emptyRetry evs =>
            simp only [getWorkerLoop, if_neg hc, hA]
            exact getWorkerLoop_trace_irrelevant count v rest gn acc (tr ++ evs) (tr' ++ evs)
        | panicked evs => simp [getWorkerLoop, hc, hA]
        | counted st evs =>
            simp only [getWorkerLoop, if_neg hc, hA]
            exact getWorkerLoop_trace_irrelevant count v rest (gn + 1)
              (acc ++ st.toList) (tr ++ evs) (tr' ++ evs)

/-- Helper: the GET worker's outcome, progress counter and recorded stats
do not depend on the verbosity flag. -/
theorem getWorkerLoop_v_indep (count : Nat) :
    ∀ (envs : List GetAttemptEnv) (gn : Nat) (acc : List Stats) (tr tr' : List GEvent),
      (getWorkerLoop count true envs gn acc tr).outcome =
        (getWorkerLoop count false envs gn acc tr').outcome ∧
      (getWorkerLoop count true envs gn acc tr).getNum =
        (getWorkerLoop count false envs gn acc tr').getNum ∧
      (getWorkerLoop count true envs gn acc tr).stats =
        (getWorkerLoop count false envs gn acc tr').stats
  | [], gn, acc, tr, tr' => by
      by_cases hc : count ≤ gn <;> simp [getWorkerLoop, hc]
  | e :: rest, gn, acc, tr, tr' => by
      by_cases hc : count ≤ gn
      · simp [getWorkerLoop, hc]
      · rcases runGetAttempt_vCases e with
          ⟨evs, hT, hF⟩ | ⟨evs, hT, hF⟩ | ⟨evs, hT, hF⟩ | ⟨st, evs, evs', hT, hF⟩
        · simp [getWorkerLoop, hc, hT, hF]
        · simp only [getWorkerLoop, if_neg hc, hT, hF]
          exact getWorkerLoop_v_indep count rest gn acc (tr ++ evs) (tr' ++ evs)
        · simp [getWorkerLoop, hc, hT, hF]
        · simp only [getWorkerLoop, if_neg hc, hT, hF]
          exact getWorkerLoop_v_indep count rest (gn + 1)
            (acc ++ st.toList) (tr ++ evs) (tr' ++ evs')

/-- Helper: the record pushed by one PUT iteration does not depend on the
verbosity flag. -/
theorem putIter_stat_v_indep (pfx : String) (e : PutIterEnv) :
    (putIter pfx true e).1 = (putIter pfx false e).1 := by
  cases h : e.putResult with
  | none => simp [putIter, h]
  | some err => cases err <;> simp [putIter, h]

/-- Helper: the PUT worker's recorded stats do not depend on the verbosity
flag. -/
theorem putWorkerLoop_v_indep (pfx : String) :
    ∀ (envs : List PutIterEnv) (acc : List Stats) (tr tr' : List GEvent),
      (putWorkerLoop pfx true envs acc tr).stats =
        (putWorkerLoop pfx false envs acc tr').stats
  | [], _, _, _ => rfl
  | e :: rest, acc, tr, tr' => by
      simp only [putWorkerLoop]
      rw [putIter_stat_v_indep pfx e]
      exact putWorkerLoop_v_indep pfx rest (acc ++ (putIter pfx false e).1.toList) _ _

/-- C10: the verbose flag is observationally inert for the measured
results: with identical inputs, the stats recorded by PUT and GET workers,
the GET worker's progress counter and final state, and the computed
summary are identical under `verbose = true` and `verbose = false`;
verbosity changes only the emitted log lines. -/
theorem verbose_flag_inert (pfx : String) (count : Nat)
    (penvs : List PutIterEnv) (genvs : List GetAttemptEnv) :
    (putWorkerRun pfx true penvs).stats = (putWorkerRun pfx false penvs).stats ∧
    (getWorkerRun count true genvs).stats = (getWorkerRun count false genvs).stats ∧
    (getWorkerRun count true genvs).getNum = (getWorkerRun count false genvs).getNum ∧
    (getWorkerRun count true genvs).outcome = (getWorkerRun count false genvs).outcome ∧
    summarize ((putWorkerRun pfx true penvs).stats ++ (getWorkerRun count true genvs).stats) =
      summarize ((putWorkerRun pfx false penvs).stats ++
        (getWorkerRun count false genvs).stats) := by
  have hp : (putWorkerRun pfx true penvs).stats = (putWorkerRun pfx false penvs).stats :=
    putWorkerLoop_v_indep pfx penvs [] [] []
  have hg := getWorkerLoop_v_indep count genvs 0 [] [] []
  have hg1 : (getWorkerRun count true genvs).outcome =
      (getWorkerRun count false genvs).outcome := hg.1
  have hg2 : (getWorkerRun count true genvs).getNum =
      (getWorkerRun count false genvs).getNum := hg.2.1
  have hg3 : (getWorkerRun count true genvs).stats =
      (getWorkerRun count false genvs).stats := hg.2.2
  exact ⟨hp, hg3, hg2, hg1, by rw [hp, hg3]⟩

/-- C1 amended: the GET worker's completed-count advances on every
iteration that obtains a nonempty candidate set with a keyed selection —
before the GET is issued.  Transport dispatch failures, other store
errors and a missing response body therefore still advance `get_num`
(contributing no `Stats` record, with no retry of the iteration), while a
successful body drain advances it and appends the record. -/
theorem getNum_counts_candidate_iterations (v : Bool) (e : GetAttemptEnv)
    (o : S3Object) (os : List S3Object) (evs : List GEvent)
    (hl : attemptListing e = (some (o :: os), evs))
    (hk : (pickObj e.keyRand o os).key.isSome) :
    ((e.getResult = GetOutcome.errDispatch ∨ e.getResult = GetOutcome.errOther ∨
        e.getResult = GetOutcome.okNoBody) →
      ∃ evs', runGetAttempt v e = AttemptResult.counted none evs') ∧
    (∀ body : List Nat, e.getResult = GetOutcome.okBody body true →
      ∃ evs', runGetAttempt v e = AttemptResult.counted
        (some ⟨e.startTime, e.endTime, RequestType.Get, body.length⟩) evs') ∧
    (∀ (count gn : Nat) (acc : List Stats) (tr : List GEvent)
        (rest : List GetAttemptEnv) (st : Option Stats) (evs2 : List GEvent),
      gn < count → runGetAttempt v e = AttemptResult.counted st evs2 →
      getWorkerLoop count v (e :: rest) gn acc tr =
        getWorkerLoop count v rest (gn + 1) (acc ++ st.toList) (tr ++ evs2)) := by
  obtain ⟨k, hk'⟩ := Option.isSome_iff_exists.mp hk
  refine ⟨?_, ?_, ?_⟩
  · rintro (hg | hg | hg)
    · exact ⟨evs, by simp [runGetAttempt, hl, hk', hg]⟩
    · exact ⟨evs ++ [GEvent.errOut "Error getting object"],
        by simp [runGetAttempt, hl, hk', hg]⟩
    · exact ⟨evs ++ [GEvent.errOut "No body in response"],
        by simp [runGetAttempt, hl, hk', hg]⟩
  · intro body hg
    exact ⟨evs ++ (if v then
        [GEvent.out ("get key " ++ k ++ " takes " ++
          toString (e.endTime - e.startTime) ++ "ms")] else []),
      by simp [runGetAttempt, hl, hk', hg]⟩
  · intro count gn acc tr rest st evs2 hgn hA
    simp [getWorkerLoop, hA, Nat.not_le.mpr hgn]

/-- C1 amended witness: with one keyed candidate and a failing GET the
attempt still counts, pushing no record. -/
theorem getNum_counts_candidate_iterations_witness :
    ∃ evs', runGetAttempt false failedGetEnv = AttemptResult.counted none evs' :=
  (getNum_counts_candidate_iterations false failedGetEnv ⟨some "k"⟩ [] []
    (by decide) (by decide)).1 (Or.inr (Or.inl (by decide)))

/-- C3 amended: pagination continues exactly while each successful
response carries both a contents list and a continuation token: every
processed page's contents are accumulated in order, a response with an
absent contents field terminates the pass at once — even when it carries
a continuation token — an absent token terminates it after accumulating,
and a transport dispatch failure is logged and the loop re-issues the
request (consuming the next response). -/
theorem listing_pagination_accumulates :
    (∀ (pages : List (List S3Object × Nat)) (last : List S3Object)
        (acc : List S3Object) (evs : List GEvent),
      listLoop acc evs
          ((pages.map (fun p => ListResult.ok ⟨some p.1, some p.2⟩)) ++
            [ListResult.ok ⟨some last, none⟩]) =
        (some (acc ++ (pages.map Prod.fst).flatten ++ last), evs)) ∧
    (∀ (acc : List S3Object) (evs : List GEvent) (rest : List ListResult)
        (tok : Option Nat),
      listLoop acc evs (ListResult.ok ⟨none, tok⟩ :: rest) = (some acc, evs)) ∧
    (∀ (acc : List S3Object) (evs : List GEvent) (rest : List ListResult),
      listLoop acc evs (ListResult.errDispatch :: rest) =
        listLoop acc (evs ++ [GEvent.out "HttpDispatch"]) rest) := by
  refine ⟨?_, fun acc evs rest tok => rfl, fun acc evs rest => rfl⟩
  intro pages
  induction pages with
  | nil => intro last acc evs; simp [listLoop]
  | cons p ps ih =>
      intro last acc evs
      simp only [List.map_cons, List.cons_append, listLoop, List.append_eq]
      rw [ih]
      simp [List.append_assoc]

/-- C4 amended: a non-transport listing error aborts only the current
listing pass (later pages are not requested; descriptors already
accumulated are kept); the enclosing GET iteration falls back to the
sleep-and-retry path only when the accumulated candidate set is empty.
With a nonempty partial candidate set the worker proceeds: it selects a
key, issues the GET, and advances the completed-count. -/
theorem listing_error_aborts_pass_not_iteration (v : Bool) (e : GetAttemptEnv) :
    (∀ (acc : List S3Object) (evs : List GEvent) (rest : List ListResult),
      listLoop acc evs (ListResult.errOther :: rest) =
        (some acc, evs ++ [GEvent.errOut "Error listing objects"])) ∧
    (∀ evs : List GEvent, attemptListing e = (some [], evs) →
      runGetAttempt v e = AttemptResult.emptyRetry (evs ++ [GEvent.sleepSec 1])) ∧
    (∀ (o : S3Object) (os : List S3Object) (evs : List GEvent) (k : String),
      attemptListing e = (some (o :: os), evs) →
      (pickObj e.keyRand o os).key = some k →
      (∀ b : List Nat, e.getResult ≠ GetOutcome.okBody b false) →
      ∃ st evs', runGetAttempt v e = AttemptResult.counted st evs') := by
  refine ⟨fun acc evs rest => rfl, ?_, ?_⟩
  · intro evs hl
    simp [runGetAttempt, hl]
  · intro o os evs k hl hk hnd
    rcases hg : e.getResult with ⟨body, drain⟩ | _ | _ | _
    · cases drain
      · exact absurd hg (hnd body)
      · exact ⟨some ⟨e.startTime, e.endTime, RequestType.Get, body.length⟩,
          evs ++ (if v then
            [GEvent.out ("get key " ++ k ++ " takes " ++
              toString (e.endTime - e.startTime) ++ "ms")] else []),
          by simp [runGetAttempt, hl, hk, hg]⟩
    · exact ⟨none, evs ++ [GEvent.errOut "No body in response"],
        by simp [runGetAttempt, hl, hk, hg]⟩
    · exact ⟨none, evs, by simp [runGetAttempt, hl, hk, hg]⟩
    · exact ⟨none, evs ++ [GEvent.errOut "Error getting object"],
        by simp [runGetAttempt, hl, hk, hg]⟩

/-- C4 amended witness: after a page-two listing error the worker still
issues the GET using page one's candidate and records the attempt. -/
theorem listing_error_aborts_pass_not_iteration_witness :
    ∃ st evs', runGetAttempt false partialListEnv = AttemptResult.counted st evs' :=
  (listing_error_aborts_pass_not_iteration false partialListEnv).2.2
    ⟨some "k"⟩ [] [GEvent.errOut "Error listing objects"] "k"
    (by decide) (by decide)
    (by intro b h; injection h with h1 h2; exact Bool.noConfusion h2)

/-- C6 amended: errors returned by `get_object` (transport dispatch or any
other store error) and a missing response body are not fatal: the worker
prints at most a diagnostic line, pushes no record, and continues with
its loop.  But not every GET-iteration error is survivable: a failure
while draining the body and a selected descriptor lacking a key both hit
an `unwrap` and panic the worker task. -/
theorem get_error_policy (v : Bool) (e : GetAttemptEnv) (o : S3Object)
    (os : List S3Object) (evs : List GEvent)
    (hl : attemptListing e = (some (o :: os), evs)) :
    (∀ k : String, (pickObj e.keyRand o os).key = some k →
      (e.getResult = GetOutcome.errDispatch ∨ e.getResult = GetOutcome.errOther ∨
        e.getResult = GetOutcome.okNoBody) →
      ∃ evs', runGetAttempt v e = AttemptResult.counted none evs' ∧
        ∀ (count gn : Nat) (acc : List Stats) (tr : List GEvent)
            (rest : List GetAttemptEnv), gn < count →
          getWorkerLoop count v (e :: rest) gn acc tr =
            getWorkerLoop count v rest (gn + 1) acc (tr ++ evs')) ∧
    ((pickObj e.keyRand o os).key = none →
      runGetAttempt v e = AttemptResult.panicked evs) ∧
    (∀ (body : List Nat) (k : String), (pickObj e.keyRand o os).key = some k →
      e.getResult = GetOutcome.okBody body false →
      runGetAttempt v e = AttemptResult.panicked evs) := by
  refine ⟨?_, ?_, ?_⟩
  · intro k hk hg
    have step : ∀ evs' : List GEvent,
        runGetAttempt v e = AttemptResult.counted none evs' →
        ∀ (count gn : Nat) (acc : List Stats) (tr : List GEvent)
            (rest : List GetAttemptEnv), gn < count →
          getWorkerLoop count v (e :: rest) gn acc tr =
            getWorkerLoop count v rest (gn + 1) acc (tr ++ evs') := by
      intro evs' hA count gn acc tr rest hgn
      simp [getWorkerLoop, hA, Nat.not_le.mpr hgn]
    rcases hg with hg | hg | hg
    · have hA : runGetAttempt v e = AttemptResult.counted none evs := by
        simp [runGetAttempt, hl, hk, hg]
      exact ⟨evs, hA, step evs hA⟩
    · have hA : runGetAttempt v e = AttemptResult.counted none
          (evs ++ [GEvent.errOut "Error getting object"]) := by
        simp [runGetAttempt, hl, hk, hg]
      exact ⟨_, hA, step _ hA⟩
    · have hA : runGetAttempt v e = AttemptResult.counted none
          (evs ++ [GEvent.errOut "No body in response"]) := by
        simp [runGetAttempt, hl, hk, hg]
      exact ⟨_, hA, step _ hA⟩
  · intro hk
    simp [runGetAttempt, hl, hk]
  · intro body k hk hg
    simp [runGetAttempt, hl, hk, hg]

/-- C6 amended witness: the drain-failure attempt panics the worker. -/
theorem get_error_policy_witness :
    runGetAttempt false drainFailEnv = AttemptResult.panicked [] :=
  (get_error_policy false drainFailEnv ⟨some "k"⟩ [] [] (by decide)).2.2 [7] "k"
    (by decide) (by decide)

/-- C8: the GET worker never selects a key from an empty candidate set: an
attempt whose listing pass yields zero candidates results in a one-second
sleep and a restart of the listing from the beginning; any prefix of such
empty-pass attempts is consumed without contributing stats, progress, or
a changed final state, so the worker repeats until a nonempty listing is
observed; and a counted attempt — the only kind that selects a key and
lets the iteration proceed — can only arise from a nonempty listing pass. -/
theorem empty_listing_sleeps_and_retries (count : Nat) (v : Bool) :
    (∀ (e : GetAttemptEnv) (evs : List GEvent),
      attemptListing e = (some [], evs) →
      runGetAttempt v e = AttemptResult.emptyRetry (evs ++ [GEvent.sleepSec 1])) ∧
    (∀ (e : GetAttemptEnv) (st : Option Stats) (evs : List GEvent),
      runGetAttempt v e = AttemptResult.counted st evs →
      ∃ (o : S3Object) (os : List S3Object) (evs0 : List GEvent),
        attemptListing e = (some (o :: os), evs0)) ∧
    (∀ (es rest : List GetAttemptEnv), 0 < count →
      (∀ e ∈ es, ∃ evs, runGetAttempt v e = AttemptResult.emptyRetry evs) →
      (getWorkerRun count v (es ++ rest)).stats = (getWorkerRun count v rest).stats ∧
      (getWorkerRun count v (es ++ rest)).getNum = (getWorkerRun count v rest).getNum ∧
      (getWorkerRun count v (es ++ rest)).outcome = (getWorkerRun count v rest).outcome) := by
  refine ⟨?_, ?_, ?_⟩
  · intro e evs hl
    simp [runGetAttempt, hl]
  · intro e st evs hc
    rcases h : attemptListing e with ⟨o?, evs0⟩
    rcases o? with _ | (_ | ⟨o, os⟩)
    · simp [runGetAttempt, h] at hc
    · simp [runGetAttempt, h] at hc
    · exact ⟨o, os, evs0, rfl⟩
  · intro es rest hc
    induction es with
    | nil => intro _; exact ⟨rfl, rfl, rfl⟩
    | cons e es' ih =>
        intro hall
        obtain ⟨evs, hA⟩ := hall e (by simp)
        have hstep : getWorkerRun count v ((e :: es') ++ rest) =
            getWorkerLoop count v (es' ++ rest) 0 [] evs := by
          show getWorkerLoop count v (e :: (es' ++ rest)) 0 [] [] = _
          simp [getWorkerLoop, hA, Nat.not_le.mpr hc]
        have htr := getWorkerLoop_trace_irrelevant count v (es' ++ rest) 0 [] evs []
        have ih' := ih (fun e' he' => hall e' (by simp [he']))
        rw [hstep]
        exact ⟨htr.2.2.trans ih'.1, htr.2.1.trans ih'.2.1, htr.1.trans ih'.2.2⟩

/-- C8 witness: a clean empty pass makes the attempt sleep one second and
retry. -/
theorem empty_listing_sleeps_and_retries_witness :
    runGetAttempt false emptyListEnv = AttemptResult.emptyRetry [GEvent.sleepSec 1] :=
  (empty_listing_sleeps_and_retries 1 false).1 emptyListEnv [] (by decide)

/-- Helper: the aggregation fold computes the spec's per-kind count, total
elapsed time and total size. -/
theorem tally_foldl_spec (sv : List Stats) : ∀ t : Tally,
    sv.foldl tallyStep t =
      ⟨t.putCount + specCount RequestType.Put sv,
       t.putTime + specTotalTime RequestType.Put sv,
       t.putSize + specTotalSize RequestType.Put sv,
       t.getCount + specCount RequestType.Get sv,
       t.getTime + specTotalTime RequestType.Get sv,
       t.getSize + specTotalSize RequestType.Get sv⟩ := by
  induction sv with
  | nil =>
      intro t
      simp [specCount, specTotalTime, specTotalSize]
  | cons s rest ih =>
      intro t
      rw [List.foldl_cons, ih (tallyStep t s)]
      cases hk : s.request_type with
      | Put =>
          simp [tallyStep, hk, specCount, specTotalTime, specTotalSize,
            List.filter_cons, kindEq, Tally.mk.injEq]
          omega
      | Get =>
          simp [tallyStep, hk, specCount, specTotalTime, specTotalSize,
            List.filter_cons, kindEq, Tally.mk.injEq]
          omega

/-- C9 amended: for every collection holding at least one record of each
kind, the summary partitions by operation kind and reports, per kind, the
record count, the summed elapsed milliseconds, their truncating quotient
as the average, and the total bytes divided by `1024*1024` (truncating)
as the size in MB.  On the spec's six-Put example those formulas give
count 6, total 90 ms, average 15 ms and 0 MB for the Put partition, but
the code produces no report for that collection: its Get partition is
empty and the average division faults (see the counterexample). -/
theorem summary_report_formulas (sv : List Stats)
    (hp : specCount RequestType.Put sv ≠ 0)
    (hg : specCount RequestType.Get sv ≠ 0) :
    summarize sv = some
      ⟨specCount RequestType.Put sv, specTotalTime RequestType.Put sv,
        specTotalTime RequestType.Put sv / specCount RequestType.Put sv,
        specTotalSize RequestType.Put sv / (1024 * 1024),
        specCount RequestType.Get sv, specTotalTime RequestType.Get sv,
        specTotalTime RequestType.Get sv / specCount RequestType.Get sv,
        specTotalSize RequestType.Get sv / (1024 * 1024)⟩ := by
  have htally : tallyOf sv =
      ⟨specCount RequestType.Put sv, specTotalTime RequestType.Put sv,
       specTotalSize RequestType.Put sv, specCount RequestType.Get sv,
       specTotalTime RequestType.Get sv, specTotalSize RequestType.Get sv⟩ := by
    show sv.foldl tallyStep ⟨0, 0, 0, 0, 0, 0⟩ = _
    rw [tally_foldl_spec sv ⟨0, 0, 0, 0, 0, 0⟩]
    simp
  simp only [summarize, htally, rustDiv]
  rw [if_neg hp, if_neg hg]
  simp [Nat.div_div_eq_div_mul]

/-- C9 amended witness: on a collection with one Put (10 ms, 1000 B) and
one Get (5 ms, 2000 B) the summary reports the formula values. -/
theorem summary_report_formulas_witness :
    summarize demoBoth = some ⟨1, 10, 10, 0, 1, 5, 5, 0⟩ := by
  rw [summary_report_formulas demoBoth (by decide) (by decide)]
  decide

end S3Bench
